import Mathlib

/-!
Verification development for the PokePackOpener repository.

The embedding translates the two modules the claims concern:

* `src/utils/storage.js` (source file `src/unnamed/part_000`): the Collection
  Store — `getCollection`, `addToCollection`, `clearCollection`,
  `exportCollection`, `importCollection` over the browser key-value store.
* `src/utils/api.js` (source file `src/unnamed/part_001`): the Card Fetch
  Pipeline — `sampleUnique`, `normalizeCard`, `fetchPackFromApi`,
  `getPackFromApiCache`, `getPackFromCollection`, `getMockPack`,
  `buildUserFacingErrorMessage`, `openPack`.

Modelling conventions:

* A stored text under a localStorage key is modelled by `StoredText`:
  `absent` (getItem returns null), `unreadable` (getItem throws, or the text
  fails JSON.parse — both are handled by the same try/catch in the source),
  or `val j` (the text JSON-parses to the value `j`).  `JSON.stringify` of a
  JSON value always produces a text that parses back to the same value, so a
  produced "text" is modelled by its parse result; a text given from outside
  (the import payload) is `Option Json` — `none` for a text that fails to
  parse.
* Randomness (`Math.random`) is an explicit input: each loop iteration of
  `sampleUnique` consumes one natural number from a list, reduced modulo the
  current pool length, which realizes exactly the indices
  `Math.floor(Math.random() * pool.length)` can take.
* Network non-determinism is an explicit input: each attempted page of
  `fetchPackFromApi` is described by a `PageOutcome` (the fetch threw after
  retries, the response shape was not an array, or it returned a list of raw
  cards).  Retry/backoff happens below this level and does not change which
  outcomes are possible.
* JavaScript mutation of the caller-supplied `existingIds` set and of the
  local `pool` copy is made explicit by threading a `SampleState` record
  whose fields are exactly the mutable locals of the source function plus
  the caller's array, so that frame properties are statable.
* Card records are translated at the typed level of the spec's data model
  (§3): an identifier string (possibly empty — the empty string is the falsy
  case the source's `!candidate.id` / `c?.id` checks test for) and the other
  normalized fields.  `new Date().toISOString()` is an explicit `now` input.
-/

/-- A JSON value, the result of a successful `JSON.parse`. -/
inductive Json where
  | null : Json
  | bool (b : Bool) : Json
  | num (n : Int) : Json
  | str (s : String) : Json
  | arr (elts : List Json) : Json
  | obj (fields : List (String × Json)) : Json

/-- Stored text under a localStorage key: absent, unreadable (the read throws
or the text fails `JSON.parse`), or parsing to a JSON value. -/
inductive StoredText where
  | absent : StoredText
  | unreadable : StoredText
  | val (j : Json) : StoredText

/-- `getCollection` from `storage.js`: returns `[]` when the stored text is
absent, and `[]` when reading or parsing throws (the catch branch); otherwise
returns the parse result as-is. -/
def getCollection : StoredText → Json
  | .absent => .arr []
  | .unreadable => .arr []
  | .val j => j

/-- `exportCollection` from `storage.js`: `JSON.stringify(getCollection(), null, 2)`.
The produced text is modelled by its parse result, which for `JSON.stringify`
of a JSON value is the value itself. -/
def exportCollection (st : StoredText) : Option Json :=
  some (getCollection st)

/-- The error `importCollection` can raise: the rethrown `JSON.parse`
exception, or the `'無効なデータ形式です'` format error. -/
inductive ImportErr where
  | parseError : ImportErr
  | formatError : ImportErr
deriving DecidableEq, Repr

/-- `importCollection` from `storage.js`.  The input text is modelled by its
parse result (`none` = `JSON.parse` throws).  Returns the storage state after
the call together with the outcome: on an array the stored text is replaced
wholesale and the array returned; otherwise the error is rethrown and the
storage state is left as it was. -/
def importCollection (st : StoredText) (text : Option Json) :
    StoredText × Except ImportErr Json :=
  match text with
  | none => (st, .error .parseError)
  | some j =>
    match j with
    | .arr l => (.val (.arr l), .ok (.arr l))
    | _ => (st, .error .formatError)

/-- A normalized card record (the shape produced by `normalizeCard` and the
shape the Collection stores; fields a concrete object omits, such as
`supertype` on the mock cards, are modelled by the empty default). -/
structure Card where
  id : String
  name : String
  imageUrl : String
  types : List String
  supertype : String
  subtypes : List String
  rarity : String
  set : String
  number : String
  artist : String
  fetchedAt : String
deriving DecidableEq, Repr

/-- `addToCollection` from `storage.js`, at the level of the card list it
reads (`getCollection()`) and writes back: incoming cards whose identifier is
already present in the stored collection are dropped, the rest are appended.
The `new Set(collection.map(card => card.id))` membership test is list
membership on the stored identifiers.  The single-card overload wraps the
argument into a one-element array, so the array case is the general one. -/
def addToCollection (collection : List Card) (cardsToAdd : List Card) : List Card :=
  let existingIds := collection.map Card.id
  let newCards := cardsToAdd.filter (fun card => !(existingIds.contains card.id))
  collection ++ newCards

/-- One successful write-level operation of the Collection Store:
`addToCollection` with a card array, `clearCollection`, or a successful
`importCollection` of a text that parses to a card array. -/
inductive StoreOp where
  | add (cards : List Card) : StoreOp
  | clear : StoreOp
  | importArr (cards : List Card) : StoreOp

/-- Effect of one Collection Store operation on the stored card list:
`add` merges via `addToCollection`, `clear` removes the stored value (reading
back gives the empty list), `importArr` replaces wholesale. -/
def applyOp (st : List Card) : StoreOp → List Card
  | .add cards => addToCollection st cards
  | .clear => []
  | .importArr cards => cards

/-- The stored Collection has pairwise-distinct identifiers. -/
def UniqueIds (st : List Card) : Prop := (st.map Card.id).Nodup

instance (st : List Card) : Decidable (UniqueIds st) := by
  unfold UniqueIds; infer_instance

/-- `API_CACHE_LIMIT` from `api.js`: the cache pool is trimmed to its last
200 entries on write. -/
def API_CACHE_LIMIT : Nat := 200

/-- A raw provider record as `normalizeCard` reads it: `none` models an
absent (`undefined`) field, including an absent `images` / `set` object for
the optional-chained accesses. -/
structure RawCard where
  id : String
  name : String
  imagesLarge : Option String
  imagesSmall : Option String
  types : Option (List String)
  supertype : Option String
  subtypes : Option (List String)
  rarity : Option String
  setName : Option String
  number : Option String
  artist : Option String
deriving DecidableEq, Repr

/-- JavaScript `a || b` for a string-or-undefined left operand: an absent or
empty (falsy) string falls through to the right operand. -/
def strOr (a : Option String) (b : String) : String :=
  match a with
  | none => b
  | some s => if s = "" then b else s

/-- `normalizeCard` from `api.js`; `now` is `new Date().toISOString()`.
`card.types || []` and `card.subtypes || []` keep any present array (arrays
are truthy in JavaScript, even empty ones), hence `getD`. -/
def normalizeCard (card : RawCard) (now : String) : Card :=
  { id := card.id
    name := card.name
    imageUrl := strOr card.imagesLarge (strOr card.imagesSmall "")
    types := card.types.getD []
    supertype := strOr card.supertype ""
    subtypes := card.subtypes.getD []
    rarity := strOr card.rarity ""
    set := strOr card.setName ""
    number := strOr card.number ""
    artist := strOr card.artist ""
    fetchedAt := now }

/-- The mutable locals of `sampleUnique` plus the caller's array: `caller`
is the array the caller passed in (written by no statement of the source
body), `pool` is the private copy `[...cards]` that `splice` edits, `result`
is the accumulator, `existing` is the caller-supplied `existingIds` set
(insertion-ordered, add guarded by `has`). -/
structure SampleState (α : Type) where
  caller : List α
  pool : List α
  result : List α
  existing : List String
deriving Repr

/-- The `while` loop of `sampleUnique`, with explicit fuel.  Each iteration
removes the element at index `Math.floor(Math.random()*pool.length)` —
realized as the next random seed modulo the pool length — skips it when it
is falsy-by-id (`!candidate.id`, i.e. empty identifier) or already chosen,
and otherwise records it.  One pool element is consumed per iteration, so
fuel equal to the initial pool length runs the loop to its real exit. -/
def sampleRunFuel {α : Type} (idOf : α → String) (count : Nat) :
    Nat → SampleState α → List Nat → SampleState α
  | 0, s, _ => s
  | fuel + 1, s, rand =>
    if h : 0 < s.pool.length ∧ s.result.length < count then
      let idx := rand.headD 0 % s.pool.length
      let candidate := s.pool.get ⟨idx, Nat.mod_lt _ h.1⟩
      let pool' := s.pool.eraseIdx idx
      if idOf candidate = "" then
        sampleRunFuel idOf count fuel { s with pool := pool' } rand.tail
      else if s.existing.contains (idOf candidate) then
        sampleRunFuel idOf count fuel { s with pool := pool' } rand.tail
      else
        sampleRunFuel idOf count fuel
          { s with pool := pool'
                   result := s.result ++ [candidate]
                   existing := s.existing ++ [idOf candidate] } rand.tail
    else s

/-- `sampleUnique` from `api.js`: returns the result list together with the
final contents of the caller-supplied `existingIds` set (which the source
mutates in place). -/
def sampleUnique {α : Type} (idOf : α → String) (cards : List α) (count : Nat)
    (existingIds : List String) (rand : List Nat) : List α × List String :=
  let fin := sampleRunFuel idOf count cards.length
    { caller := cards, pool := cards, result := [], existing := existingIds } rand
  (fin.result, fin.existing)

/-- Outcome of one attempted page inside `fetchPackFromApi`:
`fetchError msg` — `fetchJsonWithRetry` threw (after its internal retries)
with message `msg`; `badShape` — the response was not `{ data: [...] }`
(logged and skipped, `lastError` untouched); `ok cards rand` — the page
returned `cards`, with `rand` the random seeds its sampling consumes. -/
inductive PageOutcome where
  | fetchError (msg : String) : PageOutcome
  | badShape : PageOutcome
  | ok (cards : List RawCard) (rand : List Nat) : PageOutcome

/-- The mutable locals of the page loop in `fetchPackFromApi`. -/
structure PageState where
  selected : List RawCard
  existing : List String
  lastErr : Option String

/-- One iteration of the page loop in `fetchPackFromApi` (the body after the
break check): a throw records `lastError`; a bad shape is skipped; a good
page is sampled for the remaining `5 - selected.length` cards against the
shared `existingIds` set. -/
def tryPage (p : PageOutcome) (st : PageState) : PageState :=
  match p with
  | .fetchError msg => { st with lastErr := some msg }
  | .badShape => st
  | .ok cards rand =>
    let pr := sampleUnique RawCard.id cards (5 - st.selected.length) st.existing rand
    { st with selected := st.selected ++ pr.1, existing := pr.2 }

/-- `fetchPackFromApi` from `api.js`.  `pagesToTry` always holds exactly two
page numbers; the second iteration is skipped by the break when five cards
are already selected.  On success returns the normalized pack together with
the cache pool as rewritten by `writeApiCachePool` (existing pool plus the
new cards with fresh nonempty ids, trimmed to the last `API_CACHE_LIMIT`);
with no card selected it throws the last error, or the generic message when
no page attempt threw. -/
def fetchPackFromApi (p1 p2 : PageOutcome) (now : String) (pool : List Card) :
    Except String (List Card × List Card) :=
  let st1 := tryPage p1 { selected := [], existing := [], lastErr := none }
  let st2 := if 5 ≤ st1.selected.length then st1 else tryPage p2 st1
  if st2.selected.isEmpty then
    .error (st2.lastErr.getD "カードを取得できませんでした。")
  else
    let normalized := (st2.selected.take 5).map (fun c => normalizeCard c now)
    let existing := pool.map Card.id
    let merged := pool ++ normalized.filter (fun c => c.id ≠ "" && !(existing.contains c.id))
    .ok (normalized, merged.drop (merged.length - API_CACHE_LIMIT))

/-- `getPackFromApiCache` from `api.js`: `pool` is what `readApiCachePool`
returned (it yields `[]` for an absent, unreadable or non-array cache text);
`null` is `none`. -/
def getPackFromApiCache (pool : List Card) (rand : List Nat) : Option (List Card) :=
  if pool.length < 5 then none
  else
    let picked := (sampleUnique Card.id pool 5 [] rand).1
    if 0 < picked.length then some picked else none

/-- `getPackFromCollection` from `api.js`: `coll` is the parsed stored
collection, `none` when `getCollection()` produced a non-array value (the
`Array.isArray` guard; the catch branch also yields `null`). -/
def getPackFromCollection (coll : Option (List Card)) (rand : List Nat) :
    Option (List Card) :=
  match coll with
  | none => none
  | some collection =>
    if collection.length < 5 then none
    else
      let picked := (sampleUnique Card.id collection 5 [] rand).1
      if 0 < picked.length then some picked else none

/-- `getMockPack` from `api.js`: the fixed five placeholder cards (fields the
object literals omit are the empty defaults). -/
def getMockPack (now : String) : List Card :=
  [ { id := "mock-001", name := "ピカチュウ", imageUrl := "", types := ["雷"],
      supertype := "", subtypes := [], rarity := "コモン", set := "モックセット",
      number := "", artist := "", fetchedAt := now },
    { id := "mock-002", name := "ヒトカゲ", imageUrl := "", types := ["炎"],
      supertype := "", subtypes := [], rarity := "コモン", set := "モックセット",
      number := "", artist := "", fetchedAt := now },
    { id := "mock-003", name := "ゼニガメ", imageUrl := "", types := ["水"],
      supertype := "", subtypes := [], rarity := "コモン", set := "モックセット",
      number := "", artist := "", fetchedAt := now },
    { id := "mock-004", name := "フシギダネ", imageUrl := "", types := ["草"],
      supertype := "", subtypes := [], rarity := "コモン", set := "モックセット",
      number := "", artist := "", fetchedAt := now },
    { id := "mock-005", name := "イーブイ", imageUrl := "", types := ["無色"],
      supertype := "", subtypes := [], rarity := "コモン", set := "モックセット",
      number := "", artist := "", fetchedAt := now } ]

/-- JavaScript `message.includes(pat)` for the nonempty literal patterns the
classifier tests. -/
def strIncludes (s pat : String) : Bool := 1 < (s.splitOn pat).length

/-- `buildUserFacingErrorMessage` from `api.js`, on the error message string. -/
def buildUserFacingErrorMessage (message : String) : String :=
  if strIncludes message "AbortError" then
    "タイムアウト: Pokémon TCG API の応答が遅いため、取得に失敗しました。"
  else if strIncludes message "Failed to fetch" || strIncludes message "NetworkError"
      || strIncludes message "Load failed" then
    "ネットワークエラー: Pokémon TCG API に接続できませんでした。"
  else if strIncludes message "CORS" then
    "CORSエラー: ブラウザのセキュリティ設定により API へのアクセスがブロックされました。"
  else if strIncludes message "APIエラー: 401" || strIncludes message "APIエラー: 403" then
    "認証エラー: APIキーが無効、または権限が不足している可能性があります。"
  else if strIncludes message "APIエラー: 429" then
    "レート制限: APIの呼び出し回数上限に達した可能性があります。"
  else if message = "" then "カード取得に失敗しました。"
  else message

/-- The `source` tag of an `openPack` result. -/
inductive Source where
  | api : Source
  | cache : Source
  | collection : Source
  | mock : Source
deriving DecidableEq, Repr

/-- The result object `openPack` resolves with. -/
structure PackResult where
  cards : List Card
  source : Source
  notice : Option String
  canSave : Bool
deriving DecidableEq, Repr

/-- The inputs `openPack` consumes in one call. -/
structure OpenPackArgs where
  forceMock : Bool
  p1 : PageOutcome
  p2 : PageOutcome
  cachePool : List Card
  coll : Option (List Card)
  randCache : List Nat
  randColl : List Nat
  now : String

/-- `openPack` from `api.js`.  `forceMock` is
`forceMockByEnv || forceMockByQuery`; `cachePool` is the parsed cache-key
content as `readApiCachePool` yields it; `coll` is the parsed collection as
in `getPackFromCollection`.  Returns the settled promise — `Except.error`
would be a rejection — together with the cache-key content after the call
(rewritten only on the live-path success). -/
def openPack (a : OpenPackArgs) : Except String PackResult × List Card :=
  if a.forceMock then
    (.ok { cards := getMockPack a.now, source := .mock,
           notice := some "モックデータで表示しています（開発/テスト用）。",
           canSave := false }, a.cachePool)
  else
    match fetchPackFromApi a.p1 a.p2 a.now a.cachePool with
    | .ok (cards, pool') =>
      (.ok { cards := cards, source := .api, notice := none, canSave := true }, pool')
    | .error e =>
      let userMessage := buildUserFacingErrorMessage e
      match getPackFromApiCache a.cachePool a.randCache with
      | some cached =>
        (.ok { cards := cached, source := .cache,
               notice := some (userMessage ++ " 代わりにキャッシュから表示しています。"),
               canSave := true }, a.cachePool)
      | none =>
        match getPackFromCollection a.coll a.randColl with
        | some fromColl =>
          (.ok { cards := fromColl, source := .collection,
                 notice := some (userMessage ++ " 代わりにコレクションから表示しています。"),
                 canSave := false }, a.cachePool)
        | none =>
          (.ok { cards := getMockPack a.now, source := .mock,
                 notice := some (userMessage ++ " 代わりにモックデータで表示しています。"),
                 canSave := false }, a.cachePool)

/-! ### Storage-layer claims -/

/-- `Array.isArray` on a parsed JSON value. -/
def Json.isArr : Json → Bool
  | .arr _ => true
  | _ => false

/-- Two distinct card records sharing the identifier `"a"`. -/
def cardA1 : Card :=
  { id := "a", name := "A one", imageUrl := "", types := [], supertype := "",
    subtypes := [], rarity := "", set := "", number := "", artist := "", fetchedAt := "t" }

/-- Second card with the identifier `"a"` but a different name. -/
def cardA2 : Card :=
  { id := "a", name := "A two", imageUrl := "", types := [], supertype := "",
    subtypes := [], rarity := "", set := "", number := "", artist := "", fetchedAt := "t" }

/-- Claim C4 counterexample: a storage state whose text parses to the JSON
number `42` makes `getCollection` return that number as-is — not an ordered
sequence of cards and not the empty sequence. -/
theorem getCollection_nonarray_counterexample :
    getCollection (StoredText.val (Json.num 42)) = Json.num 42 ∧
    (getCollection (StoredText.val (Json.num 42))).isArr = false := by
  exact ⟨rfl, rfl⟩

/-- Claim C4 (amended): `getCollection` returns the empty sequence whenever
the stored value is absent or unreadable (a read or parse failure is
swallowed, not raised — the function is total); when the stored text parses,
the parsed value is returned as-is, so the result is an ordered sequence
exactly when the stored text encodes one. -/
theorem getCollection_spec :
    getCollection StoredText.absent = Json.arr [] ∧
    getCollection StoredText.unreadable = Json.arr [] ∧
    ∀ j : Json, getCollection (StoredText.val j) = j := by
  refine ⟨rfl, rfl, fun j => rfl⟩

/-- Claim C6: a text that parses to any non-array JSON value makes
`importCollection` raise the format error and leave the previously stored
Collection untouched. -/
theorem importCollection_nonarray (st : StoredText) (j : Json)
    (h : j.isArr = false) :
    importCollection st (some j) = (st, Except.error ImportErr.formatError) := by
  cases j <;> try rfl
  simp [Json.isArr] at h

/-- Witness for C6 at the spec's own example, a JSON object. -/
theorem importCollection_nonarray_witness :
    importCollection StoredText.absent (some (Json.obj [])) =
      (StoredText.absent, Except.error ImportErr.formatError) :=
  importCollection_nonarray StoredText.absent (Json.obj []) rfl

/-- Claim C7: `addToCollection` is idempotent — a second application with the
same card array adds nothing, because every incoming identifier is in the
stored Collection after the first application. -/
theorem addToCollection_eq (st cards : List Card) :
    addToCollection st cards =
      st ++ cards.filter (fun card => !((st.map Card.id).contains card.id)) := rfl

theorem addToCollection_idempotent (st cards : List Card) :
    addToCollection (addToCollection st cards) cards = addToCollection st cards := by
  have key : ∀ c ∈ cards,
      (((addToCollection st cards).map Card.id).contains c.id) = true := by
    intro c hc
    simp only [addToCollection_eq, List.map_append, List.elem_eq_mem, List.mem_append,
      List.mem_map, decide_eq_true_eq]
    by_cases hmem : c.id ∈ st.map Card.id
    · exact Or.inl (List.mem_map.mp hmem)
    · refine Or.inr ⟨c, List.mem_filter.mpr ⟨hc, ?_⟩, rfl⟩
      simp only [Bool.not_eq_true', List.elem_eq_mem, decide_eq_false_iff_not]
      exact fun hex => hmem (List.mem_map.mpr hex)
  rw [addToCollection_eq (addToCollection st cards) cards]
  have h2 : cards.filter
      (fun card => !(((addToCollection st cards).map Card.id).contains card.id)) = [] := by
    rw [List.filter_eq_nil_iff]
    intro c hc
    rw [key c hc]
    simp
  rw [h2, List.append_nil]

/-- Claim C8: exporting the stored Collection and importing the produced text
stores that very Collection back (a wholesale replacement: the prior state
`st2` at import time is arbitrary and does not contribute), and reading it
back yields the exported Collection. -/
theorem export_import_roundtrip (st st2 : StoredText) (l : List Json)
    (h : getCollection st = Json.arr l) :
    importCollection st2 (exportCollection st) =
      (StoredText.val (Json.arr l), Except.ok (Json.arr l)) ∧
    getCollection (importCollection st2 (exportCollection st)).1 = getCollection st := by
  rw [exportCollection, h]
  exact ⟨rfl, rfl⟩

/-- Witness for C8: an empty stored Collection round-trips through an import
over a previously populated store. -/
theorem export_import_roundtrip_witness :
    importCollection (StoredText.val (Json.num 7)) (exportCollection StoredText.absent) =
      (StoredText.val (Json.arr []), Except.ok (Json.arr [])) ∧
    getCollection (importCollection (StoredText.val (Json.num 7))
        (exportCollection StoredText.absent)).1 = getCollection StoredText.absent :=
  export_import_roundtrip StoredText.absent (StoredText.val (Json.num 7)) [] rfl

/-- Claim C9: the incoming batch is deduplicated only against the stored
Collection — two incoming cards with the same fresh identifier are both
appended, and the returned (= persisted) Collection carries that identifier
twice. -/
theorem addToCollection_intra_batch_duplicate :
    addToCollection [] [cardA1, cardA2] = [cardA1, cardA2] ∧
    (addToCollection [] [cardA1, cardA2]).map Card.id = ["a", "a"] := by
  exact ⟨rfl, rfl⟩

/-- Claim C5 counterexample: from the empty Collection, a single
`addToCollection` whose input array repeats a fresh identifier yields a
stored Collection with a duplicated identifier. -/
theorem unique_ids_counterexample :
    ¬ UniqueIds (applyOp [] (StoreOp.add [cardA1, cardA2])) := by
  decide

/-- The input of a Collection Store operation carries pairwise-distinct
identifiers (`clear` has no input). -/
def OpInputNodup : StoreOp → Prop
  | .add cards => (cards.map Card.id).Nodup
  | .clear => True
  | .importArr cards => (cards.map Card.id).Nodup

instance (op : StoreOp) : Decidable (OpInputNodup op) := by
  cases op <;> simp only [OpInputNodup] <;> infer_instance

/-- `addToCollection` preserves identifier uniqueness when the incoming array
has no internal duplicate. -/
theorem addToCollection_unique {st cards : List Card}
    (hst : UniqueIds st) (hcards : (cards.map Card.id).Nodup) :
    UniqueIds (addToCollection st cards) := by
  unfold UniqueIds addToCollection at *
  simp only [List.map_append]
  rw [List.nodup_append]
  refine ⟨hst, ?_, ?_⟩
  · exact hcards.sublist ((List.filter_sublist _).map Card.id)
  · intro a ha hb
    rcases List.mem_map.mp hb with ⟨c, hc, rfl⟩
    have hf := (List.mem_filter.mp hc).2
    simp only [Bool.not_eq_true', List.elem_eq_mem, decide_eq_false_iff_not] at hf
    exact hf ha

/-! ### The sampling loop: invariants -/

/-- Main invariant of the `sampleUnique` loop, for any fuel: the caller's
array is untouched; the run extends `result` by some list `new` of picked
cards and extends `existing` by exactly their identifiers; the picked
identifiers are pairwise distinct and none of them was in `existing` at
entry; and the result never grows beyond `count`. -/
theorem sampleRunFuel_spec {α : Type} (idOf : α → String) (count : Nat) :
    ∀ (fuel : Nat) (s : SampleState α) (rand : List Nat),
      ∃ new : List α,
        (sampleRunFuel idOf count fuel s rand).caller = s.caller ∧
        (sampleRunFuel idOf count fuel s rand).result = s.result ++ new ∧
        (sampleRunFuel idOf count fuel s rand).existing = s.existing ++ new.map idOf ∧
        (new.map idOf).Nodup ∧
        (∀ x ∈ new, idOf x ∉ s.existing) ∧
        (sampleRunFuel idOf count fuel s rand).result.length ≤
          max s.result.length count := by
  intro fuel
  induction fuel with
  | zero =>
    intro s rand
    exact ⟨[], rfl, by simp [sampleRunFuel], by simp [sampleRunFuel], by simp,
      by simp, by simp [sampleRunFuel]⟩
  | succ n ih =>
    intro s rand
    simp only [sampleRunFuel]
    split
    · next h =>
      split
      · next hblank =>
        obtain ⟨new, h1, h2, h3, h4, h5, h6⟩ := ih
          { caller := s.caller, pool := s.pool.eraseIdx (rand.headD 0 % s.pool.length),
            result := s.result, existing := s.existing } rand.tail
        exact ⟨new, h1, h2, h3, h4, h5, h6⟩
      · next hblank =>
        split
        · next hdup =>
          obtain ⟨new, h1, h2, h3, h4, h5, h6⟩ := ih
            { caller := s.caller, pool := s.pool.eraseIdx (rand.headD 0 % s.pool.length),
              result := s.result, existing := s.existing } rand.tail
          exact ⟨new, h1, h2, h3, h4, h5, h6⟩
        · next hdup =>
          obtain ⟨new, h1, h2, h3, h4, h5, h6⟩ := ih
            { caller := s.caller, pool := s.pool.eraseIdx (rand.headD 0 % s.pool.length),
              result := s.result ++ [s.pool.get ⟨rand.headD 0 % s.pool.length, Nat.mod_lt _ h.1⟩],
              existing := s.existing ++
                [idOf (s.pool.get ⟨rand.headD 0 % s.pool.length, Nat.mod_lt _ h.1⟩)] } rand.tail
          refine ⟨s.pool.get ⟨rand.headD 0 % s.pool.length, Nat.mod_lt _ h.1⟩ :: new,
            h1, ?_, ?_, ?_, ?_, ?_⟩
          · rw [h2]; simp
          · rw [h3]; simp
          · simp only [List.map_cons, List.nodup_cons]
            refine ⟨?_, h4⟩
            intro hmem
            obtain ⟨x, hx, hxid⟩ := List.mem_map.mp hmem
            have hfr := h5 x hx
            simp only [List.mem_append, List.mem_singleton] at hfr
            exact hfr (Or.inr hxid)
          · intro x hx
            rcases List.mem_cons.mp hx with hx0 | hx'
            · subst hx0
              intro hmem
              exact hdup (by simpa using hmem)
            · intro hmem
              exact h5 x hx' (by simp [hmem])
          · have hle : s.result.length + 1 ≤ count := h.2
            refine le_trans h6 ?_
            have hmax : max (s.result ++ [s.pool.get
                ⟨rand.headD 0 % s.pool.length, Nat.mod_lt _ h.1⟩]).length count = count := by
              simp only [List.length_append, List.length_singleton]
              exact Nat.max_eq_right hle
            rw [hmax]
            exact le_max_right _ _
    · next h =>
      exact ⟨[], rfl, by simp, by simp, by simp, by simp, le_max_left _ _⟩

/-- An element other than the removed position survives `eraseIdx`. -/
theorem mem_eraseIdx_of_ne {α : Type} {l : List α} {i : Nat} (hi : i < l.length)
    {x : α} (hx : x ∈ l) (hne : x ≠ l.get ⟨i, hi⟩) : x ∈ l.eraseIdx i := by
  rw [List.eraseIdx_eq_take_drop_succ]
  rw [← List.take_append_drop i l] at hx
  rcases List.mem_append.mp hx with h1 | h2
  · exact List.mem_append.mpr (Or.inl h1)
  · rw [← List.get_cons_drop l ⟨i, hi⟩] at h2
    rcases List.mem_cons.mp h2 with h3 | h4
    · exact absurd h3 hne
    · exact List.mem_append.mpr (Or.inr h4)

/-- `eraseIdx` only removes elements. -/
theorem mem_of_mem_eraseIdx {α : Type} {l : List α} {i : Nat} {x : α}
    (hx : x ∈ l.eraseIdx i) : x ∈ l := by
  rw [List.eraseIdx_eq_take_drop_succ] at hx
  rcases List.mem_append.mp hx with h1 | h2
  · exact List.mem_of_mem_take h1
  · exact List.mem_of_mem_drop h2

/-- With fuel covering the pool, a positive target and an empty result
accumulator, the loop picks at least one card whenever the pool has a card
with a nonempty identifier not yet in `existing`: any such card is accepted
the moment it is drawn, and it can only leave the pool by being drawn. -/
theorem sampleRunFuel_result_ne_nil {α : Type} (idOf : α → String) (count : Nat) :
    ∀ (fuel : Nat) (s : SampleState α) (rand : List Nat),
      s.pool.length ≤ fuel → s.result = [] → 0 < count →
      (∃ c ∈ s.pool, idOf c ≠ "" ∧ idOf c ∉ s.existing) →
      (sampleRunFuel idOf count fuel s rand).result ≠ [] := by
  intro fuel
  induction fuel with
  | zero =>
    intro s rand hfuel _ _ hw
    obtain ⟨c, hc, _⟩ := hw
    have hnil : s.pool = [] := List.length_eq_zero.mp (Nat.le_zero.mp hfuel)
    rw [hnil] at hc
    exact absurd hc (List.not_mem_nil c)
  | succ n ih =>
    intro s rand hfuel hres hcount hw
    obtain ⟨w, hwmem, hwid, hwex⟩ := hw
    have hpool : 0 < s.pool.length :=
      List.length_pos.mpr (List.ne_nil_of_mem hwmem)
    simp only [sampleRunFuel]
    split
    · next h =>
      have hlen : (s.pool.eraseIdx (rand.headD 0 % s.pool.length)).length + 1
          = s.pool.length :=
        List.length_eraseIdx_add_one (Nat.mod_lt _ h.1)
      split
      · next hblank =>
        apply ih
        · dsimp only
          omega
        · exact hres
        · exact hcount
        · refine ⟨w, mem_eraseIdx_of_ne (Nat.mod_lt _ h.1) hwmem ?_, hwid, hwex⟩
          intro heq
          rw [heq] at hwid
          exact hwid hblank
      · next hblank =>
        split
        · next hdup =>
          apply ih
          · dsimp only
            omega
          · exact hres
          · exact hcount
          · refine ⟨w, mem_eraseIdx_of_ne (Nat.mod_lt _ h.1) hwmem ?_, hwid, hwex⟩
            intro heq
            rw [heq] at hwex
            exact hwex (by simpa using hdup)
        · next hdup =>
          obtain ⟨new, _, h2, _, _, _, _⟩ := sampleRunFuel_spec idOf count n
            { caller := s.caller, pool := s.pool.eraseIdx (rand.headD 0 % s.pool.length),
              result := s.result ++ [s.pool.get ⟨rand.headD 0 % s.pool.length, Nat.mod_lt _ h.1⟩],
              existing := s.existing ++
                [idOf (s.pool.get ⟨rand.headD 0 % s.pool.length, Nat.mod_lt _ h.1⟩)] } rand.tail
          intro hnil
          rw [h2] at hnil
          simp [hres] at hnil
    · next h =>
      exact absurd ⟨hpool, by rw [hres]; simpa using hcount⟩ h

/-- When every pool entry has an empty (falsy) identifier, the loop rejects
every draw and the result accumulator is returned unchanged. -/
theorem sampleRunFuel_all_blank {α : Type} (idOf : α → String) (count : Nat) :
    ∀ (fuel : Nat) (s : SampleState α) (rand : List Nat),
      (∀ c ∈ s.pool, idOf c = "") →
      (sampleRunFuel idOf count fuel s rand).result = s.result := by
  intro fuel
  induction fuel with
  | zero => intro s rand _; rfl
  | succ n ih =>
    intro s rand hall
    simp only [sampleRunFuel]
    split
    · next h =>
      have hcand : idOf (s.pool.get
          ⟨rand.headD 0 % s.pool.length, Nat.mod_lt _ h.1⟩) = "" :=
        hall _ (List.get_mem _ _ _)
      rw [if_pos hcand]
      apply ih
      intro c hc
      exact hall c (mem_of_mem_eraseIdx hc)
    · next h => rfl

/-- Entry-point form of the loop invariant for `sampleUnique`: the final
`existingIds` is the initial one extended by exactly the identifiers of the
result, those identifiers are pairwise distinct and fresh, and the result
size is bounded by the requested count. -/
theorem sampleUnique_spec {α : Type} (idOf : α → String) (cards : List α) (count : Nat)
    (ids : List String) (rand : List Nat) :
    (sampleUnique idOf cards count ids rand).2 =
      ids ++ ((sampleUnique idOf cards count ids rand).1).map idOf ∧
    (((sampleUnique idOf cards count ids rand).1).map idOf).Nodup ∧
    (∀ x ∈ (sampleUnique idOf cards count ids rand).1, idOf x ∉ ids) ∧
    (sampleUnique idOf cards count ids rand).1.length ≤ count := by
  obtain ⟨new, _, h2, h3, h4, h5, h6⟩ := sampleRunFuel_spec idOf count cards.length
    { caller := cards, pool := cards, result := [], existing := ids } rand
  simp only [sampleUnique]
  refine ⟨?_, ?_, ?_, ?_⟩
  · rw [h2, h3]; simp
  · rw [h2]; simpa using h4
  · intro x hx
    rw [h2] at hx
    simp only [List.nil_append] at hx
    exact h5 x hx
  · rw [h2]
    rw [h2] at h6
    simpa using h6

/-- `sampleUnique` returns a nonempty selection whenever the target is
positive and the pool holds a card with a nonempty identifier outside the
caller's `existingIds`. -/
theorem sampleUnique_ne_nil {α : Type} (idOf : α → String) (cards : List α) (count : Nat)
    (ids : List String) (rand : List Nat) (hcount : 0 < count)
    (hw : ∃ c ∈ cards, idOf c ≠ "" ∧ idOf c ∉ ids) :
    (sampleUnique idOf cards count ids rand).1 ≠ [] := by
  simp only [sampleUnique]
  exact sampleRunFuel_result_ne_nil idOf count cards.length
    { caller := cards, pool := cards, result := [], existing := ids } rand
    (le_refl _) rfl hcount hw

/-- `sampleUnique` returns the empty selection when every pool entry has an
empty identifier. -/
theorem sampleUnique_all_blank {α : Type} (idOf : α → String) (cards : List α)
    (count : Nat) (ids : List String) (rand : List Nat)
    (hall : ∀ c ∈ cards, idOf c = "") :
    (sampleUnique idOf cards count ids rand).1 = [] := by
  simp only [sampleUnique]
  exact sampleRunFuel_all_blank idOf count cards.length
    { caller := cards, pool := cards, result := [], existing := ids } rand hall

/-- Claim C10: the run of `sampleUnique` starting from the caller's array
leaves that array unchanged (the loop splices only the private copy held in
the `pool` field), and the caller-supplied `existingIds` set is mutated into
exactly its old contents followed by the identifiers of the selected cards —
the only caller-visible mutation. -/
theorem sampleUnique_frame {α : Type} (idOf : α → String) (cards : List α)
    (count : Nat) (existingIds : List String) (rand : List Nat) :
    (sampleRunFuel idOf count cards.length
      { caller := cards, pool := cards, result := [], existing := existingIds }
      rand).caller = cards ∧
    (sampleUnique idOf cards count existingIds rand).2 =
      existingIds ++ ((sampleUnique idOf cards count existingIds rand).1).map idOf := by
  obtain ⟨new, h1, h2, h3, _, _, _⟩ := sampleRunFuel_spec idOf count cards.length
    { caller := cards, pool := cards, result := [], existing := existingIds } rand
  refine ⟨h1, ?_⟩
  simp only [sampleUnique]
  rw [h2, h3]
  simp

/-! ### The fetch pipeline: invariants -/

/-- `(normalizeCard c now).id = c.id`: normalization keeps the identifier. -/
theorem normalizeCard_id (c : RawCard) (now : String) :
    (normalizeCard c now).id = c.id := rfl

/-- Invariant of the page loop in `fetchPackFromApi`: the shared
`existingIds` set holds exactly the identifiers of the selected raw cards,
and those identifiers are pairwise distinct. -/
def PageInv (st : PageState) : Prop :=
  st.existing = st.selected.map RawCard.id ∧ (st.selected.map RawCard.id).Nodup

theorem tryPage_inv (p : PageOutcome) (st : PageState) (h : PageInv st) :
    PageInv (tryPage p st) := by
  obtain ⟨he, hn⟩ := h
  cases p with
  | fetchError msg => exact ⟨he, hn⟩
  | badShape => exact ⟨he, hn⟩
  | ok cards rand =>
    obtain ⟨h1, h2, h3, _⟩ :=
      sampleUnique_spec RawCard.id cards (5 - st.selected.length) st.existing rand
    constructor
    · simp only [tryPage]
      rw [h1, he, List.map_append]
    · simp only [tryPage, List.map_append]
      rw [List.nodup_append]
      refine ⟨hn, h2, ?_⟩
      intro a ha hb
      obtain ⟨x, hx, rfl⟩ := List.mem_map.mp hb
      exact h3 x hx (by rw [he]; exact ha)

/-- Card count and identifier distinctness for a pack built from a selected
page sample: taking the first five and normalizing keeps between one and
five cards with pairwise-distinct identifiers. -/
theorem pack_of_selected {sel : List RawCard} (now : String)
    (hnodup : (sel.map RawCard.id).Nodup) (hne : sel ≠ []) :
    1 ≤ ((sel.take 5).map (fun c => normalizeCard c now)).length ∧
    ((sel.take 5).map (fun c => normalizeCard c now)).length ≤ 5 ∧
    (((sel.take 5).map (fun c => normalizeCard c now)).map Card.id).Nodup := by
  have hlen : ((sel.take 5).map (fun c => normalizeCard c now)).length
      = min 5 sel.length := by simp
  have hpos : 0 < sel.length := List.length_pos.mpr hne
  refine ⟨by omega, by omega, ?_⟩
  have hmap : (((sel.take 5).map (fun c => normalizeCard c now)).map Card.id)
      = (sel.take 5).map RawCard.id := by
    simp [List.map_map, Function.comp_def, normalizeCard_id]
  rw [hmap]
  exact hnodup.sublist ((List.take_sublist 5 sel).map RawCard.id)

/-- On the `Except.ok` path, `fetchPackFromApi` returns between one and five
cards with pairwise-distinct identifiers. -/
theorem fetchPackFromApi_ok {p1 p2 : PageOutcome} {now : String}
    {pool cards pool' : List Card}
    (h : fetchPackFromApi p1 p2 now pool = .ok (cards, pool')) :
    1 ≤ cards.length ∧ cards.length ≤ 5 ∧ (cards.map Card.id).Nodup := by
  have hinv1 : PageInv (tryPage p1 { selected := [], existing := [], lastErr := none }) :=
    tryPage_inv p1 _ ⟨rfl, List.nodup_nil⟩
  have hinv2 : PageInv
      (tryPage p2 (tryPage p1 { selected := [], existing := [], lastErr := none })) :=
    tryPage_inv p2 _ hinv1
  simp only [fetchPackFromApi] at h
  split at h
  · split at h
    · exact absurd h (by simp)
    · next hne =>
      rw [Except.ok.injEq, Prod.mk.injEq] at h
      obtain ⟨hcards, _⟩ := h
      rw [← hcards]
      refine pack_of_selected now hinv1.2 ?_
      intro hnil
      exact hne (by simp [hnil])
  · split at h
    · exact absurd h (by simp)
    · next hne =>
      rw [Except.ok.injEq, Prod.mk.injEq] at h
      obtain ⟨hcards, _⟩ := h
      rw [← hcards]
      refine pack_of_selected now hinv2.2 ?_
      intro hnil
      exact hne (by simp [hnil])

/-- A cache-tier hit returns between one and five cards with
pairwise-distinct identifiers. -/
theorem getPackFromApiCache_some {pool : List Card} {rand : List Nat} {l : List Card}
    (h : getPackFromApiCache pool rand = some l) :
    1 ≤ l.length ∧ l.length ≤ 5 ∧ (l.map Card.id).Nodup := by
  simp only [getPackFromApiCache] at h
  split at h
  · exact absurd h (by simp)
  · split at h
    · next hpos =>
      rw [Option.some.injEq] at h
      obtain ⟨_, h2, _, h4⟩ := sampleUnique_spec Card.id pool 5 [] rand
      rw [← h]
      exact ⟨hpos, h4, h2⟩
    · exact absurd h (by simp)

/-- The cache tier hits exactly when the pool holds at least five records,
at least one of which has a nonempty identifier. -/
theorem getPackFromApiCache_isSome {pool : List Card} {rand : List Nat} :
    (getPackFromApiCache pool rand).isSome = true ↔
      (5 ≤ pool.length ∧ ∃ c ∈ pool, c.id ≠ "") := by
  simp only [getPackFromApiCache]
  split
  · next hlt =>
    simp only [Option.isSome_none, Bool.false_eq_true, false_iff]
    intro hc
    omega
  · next hge =>
    split
    · next hpos =>
      simp only [Option.isSome_some, true_iff]
      refine ⟨by omega, ?_⟩
      by_contra hnone
      push_neg at hnone
      have hblank := sampleUnique_all_blank Card.id pool 5 [] rand hnone
      rw [hblank] at hpos
      simp at hpos
    · next hpos =>
      simp only [Option.isSome_none, Bool.false_eq_true, false_iff]
      rintro ⟨hlen5, c, hc, hid⟩
      have hne := sampleUnique_ne_nil Card.id pool 5 [] rand (by omega)
        ⟨c, hc, hid, by simp⟩
      exact hpos (List.length_pos.mpr hne)

/-- A collection-tier hit returns between one and five cards with
pairwise-distinct identifiers. -/
theorem getPackFromCollection_some {coll : Option (List Card)} {rand : List Nat}
    {l : List Card} (h : getPackFromCollection coll rand = some l) :
    1 ≤ l.length ∧ l.length ≤ 5 ∧ (l.map Card.id).Nodup := by
  match coll with
  | none => simp [getPackFromCollection] at h
  | some collection =>
    simp only [getPackFromCollection] at h
    split at h
    · exact absurd h (by simp)
    · split at h
      · next hpos =>
        rw [Option.some.injEq] at h
        obtain ⟨_, h2, _, h4⟩ := sampleUnique_spec Card.id collection 5 [] rand
        rw [← h]
        exact ⟨hpos, h4, h2⟩
      · exact absurd h (by simp)

/-- The collection tier hits exactly when the parsed stored Collection is an
array of at least five records, at least one of which has a nonempty
identifier. -/
theorem getPackFromCollection_isSome {coll : Option (List Card)} {rand : List Nat} :
    (getPackFromCollection coll rand).isSome = true ↔
      (∃ l, coll = some l ∧ 5 ≤ l.length ∧ ∃ c ∈ l, c.id ≠ "") := by
  match coll with
  | none => simp [getPackFromCollection]
  | some collection =>
    simp only [getPackFromCollection]
    split
    · next hlt =>
      simp only [Option.isSome_none, Bool.false_eq_true, false_iff]
      rintro ⟨l, hl, h5, _⟩
      rw [Option.some.injEq] at hl
      subst hl
      omega
    · next hge =>
      split
      · next hpos =>
        simp only [Option.isSome_some, true_iff]
        refine ⟨collection, rfl, by omega, ?_⟩
        by_contra hnone
        push_neg at hnone
        have hblank := sampleUnique_all_blank Card.id collection 5 [] rand hnone
        rw [hblank] at hpos
        simp at hpos
      · next hpos =>
        simp only [Option.isSome_none, Bool.false_eq_true, false_iff]
        rintro ⟨l, hl, h5, c, hc, hid⟩
        rw [Option.some.injEq] at hl
        subst hl
        have hne := sampleUnique_ne_nil Card.id collection 5 [] rand (by omega)
          ⟨c, hc, hid, by simp⟩
        exact hpos (List.length_pos.mpr hne)

/-- The five mock cards: nonempty pack of at most five, distinct ids. -/
theorem getMockPack_props (now : String) :
    1 ≤ (getMockPack now).length ∧ (getMockPack now).length ≤ 5 ∧
    ((getMockPack now).map Card.id).Nodup := by
  refine ⟨by simp [getMockPack], by simp [getMockPack], ?_⟩
  have hids : (getMockPack now).map Card.id
      = ["mock-001", "mock-002", "mock-003", "mock-004", "mock-005"] := rfl
  rw [hids]
  decide

/-! ### Pipeline claims -/

/-- Claim C3: with the fallback tiers in place, `openPack` settles with a
result on every input — every combination of page-fetch failures, malformed
responses, and cache/collection storage contents ends in `Except.ok`, never
in a rejection.  (The source can only throw before reaching the live attempt
through a programming/configuration error such as a broken environment
object, which is outside this model.) -/
theorem openPack_never_rejects (a : OpenPackArgs) :
    ∃ r : PackResult, (openPack a).1 = Except.ok r := by
  simp only [openPack]
  split
  · exact ⟨_, rfl⟩
  · split
    · exact ⟨_, rfl⟩
    · split
      · exact ⟨_, rfl⟩
      · split
        · exact ⟨_, rfl⟩
        · exact ⟨_, rfl⟩

/-- Claim C1: every successful `openPack` resolution carries between one and
five cards whose identifiers are pairwise distinct — on the forced-mock,
live-API, cache, collection and mock paths alike. -/
theorem openPack_card_count_and_distinct (a : OpenPackArgs) (r : PackResult)
    (pool' : List Card) (h : openPack a = (Except.ok r, pool')) :
    1 ≤ r.cards.length ∧ r.cards.length ≤ 5 ∧ (r.cards.map Card.id).Nodup := by
  simp only [openPack] at h
  split at h
  · rw [Prod.mk.injEq, Except.ok.injEq] at h
    obtain ⟨hr, _⟩ := h
    rw [← hr]
    exact getMockPack_props a.now
  · split at h
    · next cards pool2 heq =>
      rw [Prod.mk.injEq, Except.ok.injEq] at h
      obtain ⟨hr, _⟩ := h
      rw [← hr]
      exact fetchPackFromApi_ok heq
    · next e heq =>
      split at h
      · next cached hcache =>
        rw [Prod.mk.injEq, Except.ok.injEq] at h
        obtain ⟨hr, _⟩ := h
        rw [← hr]
        exact getPackFromApiCache_some hcache
      · next hcache =>
        split at h
        · next fromColl hcoll =>
          rw [Prod.mk.injEq, Except.ok.injEq] at h
          obtain ⟨hr, _⟩ := h
          rw [← hr]
          exact getPackFromCollection_some hcoll
        · next hcoll =>
          rw [Prod.mk.injEq, Except.ok.injEq] at h
          obtain ⟨hr, _⟩ := h
          rw [← hr]
          exact getMockPack_props a.now

/-- Forced-mock inputs used to witness C1. -/
def mockArgs : OpenPackArgs :=
  { forceMock := true, p1 := .badShape, p2 := .badShape, cachePool := [],
    coll := none, randCache := [], randColl := [], now := "t" }

/-- Witness for C1 on the forced-mock path. -/
theorem openPack_card_count_and_distinct_witness :
    1 ≤ (getMockPack "t").length ∧ (getMockPack "t").length ≤ 5 ∧
    ((getMockPack "t").map Card.id).Nodup :=
  openPack_card_count_and_distinct mockArgs
    { cards := getMockPack "t", source := Source.mock,
      notice := some "モックデータで表示しています（開発/テスト用）。", canSave := false }
    [] rfl

/-- Claim C2 (amended): with forced mock off and the live path failing, the
fallback tiers run in the fixed order cache, then collection, then mock —
but a tier with at least five records hits only when at least one of those
records carries a nonempty identifier (the sampler rejects falsy-id
entries, and a tier whose sample comes back empty is skipped): cache hit
gives `source=cache, canSave=true`; otherwise a collection hit gives
`source=collection, canSave=false`; otherwise the mock tier gives
`source=mock, canSave=false`. -/
theorem openPack_fallback_tiers (a : OpenPackArgs) (e : String)
    (hmock : a.forceMock = false)
    (hlive : fetchPackFromApi a.p1 a.p2 a.now a.cachePool = .error e) :
    ((5 ≤ a.cachePool.length ∧ ∃ c ∈ a.cachePool, c.id ≠ "") →
      ∃ r : PackResult, (openPack a).1 = Except.ok r ∧
        r.source = Source.cache ∧ r.canSave = true) ∧
    (¬(5 ≤ a.cachePool.length ∧ ∃ c ∈ a.cachePool, c.id ≠ "") →
      (∃ l, a.coll = some l ∧ 5 ≤ l.length ∧ ∃ c ∈ l, c.id ≠ "") →
      ∃ r : PackResult, (openPack a).1 = Except.ok r ∧
        r.source = Source.collection ∧ r.canSave = false) ∧
    (¬(5 ≤ a.cachePool.length ∧ ∃ c ∈ a.cachePool, c.id ≠ "") →
      ¬(∃ l, a.coll = some l ∧ 5 ≤ l.length ∧ ∃ c ∈ l, c.id ≠ "") →
      ∃ r : PackResult, (openPack a).1 = Except.ok r ∧
        r.source = Source.mock ∧ r.canSave = false) := by
  refine ⟨?_, ?_, ?_⟩
  · intro hcond
    have hsome : (getPackFromApiCache a.cachePool a.randCache).isSome = true :=
      getPackFromApiCache_isSome.mpr hcond
    obtain ⟨cached, hcached⟩ := Option.isSome_iff_exists.mp hsome
    refine ⟨PackResult.mk cached Source.cache
      (some (buildUserFacingErrorMessage e ++ " 代わりにキャッシュから表示しています。")) true, ?_, rfl, rfl⟩
    simp [openPack, hmock, hlive, hcached]
  · intro hnot hcond
    have hnone : getPackFromApiCache a.cachePool a.randCache = none := by
      cases hoc : getPackFromApiCache a.cachePool a.randCache with
      | none => rfl
      | some x =>
        exact absurd (getPackFromApiCache_isSome.mp (by rw [hoc]; rfl)) hnot
    have hsome : (getPackFromCollection a.coll a.randColl).isSome = true :=
      getPackFromCollection_isSome.mpr hcond
    obtain ⟨fromColl, hcoll⟩ := Option.isSome_iff_exists.mp hsome
    refine ⟨PackResult.mk fromColl Source.collection
      (some (buildUserFacingErrorMessage e ++ " 代わりにコレクションから表示しています。")) false, ?_, rfl, rfl⟩
    simp [openPack, hmock, hlive, hnone, hcoll]
  · intro hnot1 hnot2
    have hnone1 : getPackFromApiCache a.cachePool a.randCache = none := by
      cases hoc : getPackFromApiCache a.cachePool a.randCache with
      | none => rfl
      | some x =>
        exact absurd (getPackFromApiCache_isSome.mp (by rw [hoc]; rfl)) hnot1
    have hnone2 : getPackFromCollection a.coll a.randColl = none := by
      cases hoc : getPackFromCollection a.coll a.randColl with
      | none => rfl
      | some x =>
        exact absurd (getPackFromCollection_isSome.mp (by rw [hoc]; rfl)) hnot2
    refine ⟨PackResult.mk (getMockPack a.now) Source.mock
      (some (buildUserFacingErrorMessage e ++ " 代わりにモックデータで表示しています。")) false, ?_, rfl, rfl⟩
    simp [openPack, hmock, hlive, hnone1, hnone2]

/-- Identifier uniqueness is preserved along any operation sequence whose
inputs each carry pairwise-distinct identifiers. -/
theorem foldl_unique (ops : List StoreOp) :
    (∀ op ∈ ops, OpInputNodup op) → ∀ st : List Card, UniqueIds st →
    UniqueIds (ops.foldl applyOp st) := by
  induction ops with
  | nil =>
    intro _ st hst
    simpa using hst
  | cons op rest ih =>
    intro h st hst
    simp only [List.foldl_cons]
    apply ih (fun o ho => h o (List.mem_cons_of_mem _ ho))
    have hop := h op (List.mem_cons_self _ _)
    cases op with
    | add cards => exact addToCollection_unique hst hop
    | clear => exact List.nodup_nil
    | importArr cards => exact hop

/-- Claim C5 (amended): starting from the empty Collection, identifier
uniqueness is preserved by every Collection Store operation whose own input
array carries pairwise-distinct identifiers — `addToCollection` drops
incoming identifiers already stored but does not deduplicate the incoming
batch against itself, and `importCollection` replaces the store with the
imported array as-is, so a duplicate-bearing input can break the invariant
(see the counterexample). -/
theorem unique_ids_invariant (ops : List StoreOp)
    (h : ∀ op ∈ ops, OpInputNodup op) :
    UniqueIds (ops.foldl applyOp []) :=
  foldl_unique ops h [] List.nodup_nil

/-- Witness for the amended C5 on a concrete operation sequence. -/
theorem unique_ids_invariant_witness :
    UniqueIds ([StoreOp.add [cardA1], StoreOp.clear,
      StoreOp.importArr [cardA2], StoreOp.add [cardA1]].foldl applyOp []) :=
  unique_ids_invariant
    [StoreOp.add [cardA1], StoreOp.clear, StoreOp.importArr [cardA2], StoreOp.add [cardA1]]
    (by decide)

/-- A card record with an empty (falsy) identifier. -/
def blankCard : Card :=
  { id := "", name := "blank", imageUrl := "", types := [], supertype := "",
    subtypes := [], rarity := "", set := "", number := "", artist := "",
    fetchedAt := "t" }

/-- `openPack` inputs where both page fetches fail with message `"x"`, the
cache pool holds five records all with empty identifiers, and the stored
Collection holds the five distinct mock cards. -/
def cexArgs : OpenPackArgs :=
  { forceMock := false, p1 := .fetchError "x", p2 := .fetchError "x",
    cachePool := [blankCard, blankCard, blankCard, blankCard, blankCard],
    coll := some (getMockPack "t"), randCache := [], randColl := [], now := "t" }

/-- Claim C2 counterexample: the live path fails and the cache pool holds
five records, yet the result's source is `collection`, not `cache` — the
cache tier is skipped because its sample rejects every record with a falsy
identifier and comes back empty. -/
theorem openPack_fallback_counterexample :
    fetchPackFromApi cexArgs.p1 cexArgs.p2 cexArgs.now cexArgs.cachePool
      = Except.error "x" ∧
    5 ≤ cexArgs.cachePool.length ∧
    (openPack cexArgs).1.map PackResult.source = Except.ok Source.collection := by
  refine ⟨rfl, by decide, ?_⟩
  rfl

/-- Witness for the amended C2 at the concrete inputs of `cexArgs`. -/
theorem openPack_fallback_tiers_witness :
    ((5 ≤ cexArgs.cachePool.length ∧ ∃ c ∈ cexArgs.cachePool, c.id ≠ "") →
      ∃ r : PackResult, (openPack cexArgs).1 = Except.ok r ∧
        r.source = Source.cache ∧ r.canSave = true) ∧
    (¬(5 ≤ cexArgs.cachePool.length ∧ ∃ c ∈ cexArgs.cachePool, c.id ≠ "") →
      (∃ l, cexArgs.coll = some l ∧ 5 ≤ l.length ∧ ∃ c ∈ l, c.id ≠ "") →
      ∃ r : PackResult, (openPack cexArgs).1 = Except.ok r ∧
        r.source = Source.collection ∧ r.canSave = false) ∧
    (¬(5 ≤ cexArgs.cachePool.length ∧ ∃ c ∈ cexArgs.cachePool, c.id ≠ "") →
      ¬(∃ l, cexArgs.coll = some l ∧ 5 ≤ l.length ∧ ∃ c ∈ l, c.id ≠ "") →
      ∃ r : PackResult, (openPack cexArgs).1 = Except.ok r ∧
        r.source = Source.mock ∧ r.canSave = false) :=
  openPack_fallback_tiers cexArgs "x" rfl rfl
